import Mathlib

/-!
# Verification of the Life-Hub voice-command RAG pipeline

A shallow embedding of the repository's conversation-context assembly and
retrieval pipeline:

* `runHandler` models the edge function `supabase/functions/process-voice-command/index.ts`
  (the Request Orchestrator / Prompt Composer / client wrappers), as a pure
  function of the parsed request body and of the results that the upstream
  services (profile store, embedding API, `match_messages` RPC, completion API)
  would return, producing the HTTP result together with the ordered trace of
  upstream calls it performs.
* `match_messages` models the SQL function of the same name from
  `supabase/migrations/20250929024232_twilight_grove.sql` over an explicit
  relational state (`Database`).  The pgvector cosine-distance operator `<=>`
  is external code, so it enters as an explicit parameter `dist`;
  `cosDistQ` is an exact rational model of it, used on concrete inputs whose
  Gram norms are perfect squares.
* `addMessage`, `clientHistoryOf`, `clientPersists` model the client-side
  pieces `src/lib/conversations.ts` (`ConversationService.addMessage`) and the
  `App.tsx` voice-command flow (history slicing and persistence calls).
-/

/-- A JavaScript value, as far as the handler's truthiness / `typeof`
checks can distinguish one. -/
inductive JsVal where
  | vStr (s : String)
  | vNum (n : Int)
  | vBool (b : Bool)
  | vNull
  | vUndefined
  deriving DecidableEq, Repr

/-- JavaScript truthiness for `JsVal`. -/
def jsTruthy : JsVal → Bool
  | .vStr s => s != ""
  | .vNum n => n != 0
  | .vBool b => b
  | .vNull => false
  | .vUndefined => false

/-- `typeof v === "string"`. -/
def jsIsString : JsVal → Bool
  | .vStr _ => true
  | _ => false

/-- Extract the string payload (the handler only does this after the
`typeof` check has succeeded). -/
def jsAsString : JsVal → String
  | .vStr s => s
  | _ => ""

/-- JavaScript `x || d` for an optional string: `null`/`undefined` and the
empty string both fall through to the default. -/
def jsOrDefault (o : Option String) (d : String) : String :=
  match o with
  | some s => if s = "" then d else s
  | none => d

/-- A conversation-history role (the request's history entries). -/
inductive Role where
  | user
  | assistant
  deriving DecidableEq, Repr

/-- One entry of the request's `conversationHistory`. -/
structure HistEntry where
  role : Role
  content : String
  deriving DecidableEq, Repr

/-- A role of a message sent to the completion API. -/
inductive PMRole where
  | system
  | user
  | assistant
  deriving DecidableEq, Repr

/-- `OpenAIMessage` from the edge function. -/
structure OpenAIMessage where
  role : PMRole
  content : String
  deriving DecidableEq, Repr

/-- Widening of a history role into a completion-message role. -/
def pmOfRole : Role → PMRole
  | .user => .user
  | .assistant => .assistant

/-- The parsed request body (`VoiceCommandRequest`).  `message` and `userId`
are kept as raw JavaScript values because the handler validates them with
truthiness and `typeof` checks; `conversationHistory` defaults to `[]` at the
destructuring site, which the parser is taken to have applied already. -/
structure VoiceCommandRequest where
  message : JsVal
  userId : JsVal
  conversationId : Option String
  conversationHistory : List HistEntry
  deriving DecidableEq, Repr

/-- The profile row selected by the handler
(`nickname, age, gender, height, height_unit, weight, weight_unit, bio`). -/
structure Profile where
  nickname : Option String
  age : Option Int
  gender : Option String
  height : Option ℚ
  height_unit : Option String
  weight : Option ℚ
  weight_unit : Option String
  bio : Option String
  deriving DecidableEq, Repr

/-- Truthiness of an optional string column (`null` and `""` are falsy). -/
def strTruthy (o : Option String) : Bool :=
  match o with
  | some s => s != ""
  | none => false

/-- Truthiness of an optional integer column (`null` and `0` are falsy). -/
def intTruthy (o : Option Int) : Bool :=
  match o with
  | some n => n != 0
  | none => false

/-- Truthiness of an optional numeric column (`null` and `0` are falsy). -/
def qTruthy (o : Option ℚ) : Bool :=
  match o with
  | some q => q != 0
  | none => false

/-- `if (profile.nickname) profileContext += \x60\n- Nickname: ...\x60`. -/
def nicknameLine (p : Profile) : String :=
  if strTruthy p.nickname then "\n- Nickname: " ++ p.nickname.getD "" else ""

/-- The age line of the personalization block. -/
def ageLine (p : Profile) : String :=
  if intTruthy p.age then "\n- Age: " ++ toString (p.age.getD 0) else ""

/-- The gender line of the personalization block. -/
def genderLine (p : Profile) : String :=
  if strTruthy p.gender then "\n- Gender: " ++ p.gender.getD "" else ""

/-- The height line of the personalization block (unit defaults to `cm`). -/
def heightLine (p : Profile) : String :=
  if qTruthy p.height then
    "\n- Height: " ++ toString (p.height.getD 0) ++ " " ++ jsOrDefault p.height_unit "cm"
  else ""

/-- The weight line of the personalization block (unit defaults to `kg`). -/
def weightLine (p : Profile) : String :=
  if qTruthy p.weight then
    "\n- Weight: " ++ toString (p.weight.getD 0) ++ " " ++ jsOrDefault p.weight_unit "kg"
  else ""

/-- The bio line of the personalization block. -/
def bioLine (p : Profile) : String :=
  if strTruthy p.bio then "\n- Bio: " ++ p.bio.getD "" else ""

/-- The `profileContext` string built by the edge function: empty when no
profile row exists, otherwise a header followed by one line per truthy
field, in the source's fixed order. -/
def profileContext : Option Profile → String
  | none => ""
  | some p =>
    "\n\nUser Profile:" ++ nicknameLine p ++ ageLine p ++ genderLine p
      ++ heightLine p ++ weightLine p ++ bioLine p

/-- One row returned by the `match_messages` RPC. -/
structure MatchRow where
  id : Nat
  conversation_id : Nat
  role : String
  content : String
  is_voice : Bool
  created_at : Nat
  similarity : ℚ
  deriving DecidableEq, Repr

/-- The `relevantContext` string: empty when the RPC data is `null` or the
row list is empty, otherwise a header plus one bullet per retrieved row. -/
def relevantContextOf (similar : Option (List MatchRow)) : String :=
  match similar with
  | none => ""
  | some rows =>
    if rows.length > 0 then
      "\n\nRelevant past context:\n"
        ++ String.intercalate "\n" (rows.map fun m => "- " ++ m.content)
    else ""

/-- The fixed persona text preceding `${profileContext}${relevantContext}`
in the system prompt. -/
def personaPrefix : String :=
  "You are VoiceFlow Assistant™, an intelligent personal assistant integrated into the Unified Life Hub™ app. You help users manage their daily life with a warm, professional, and proactive approach.\n\nKey capabilities:\n- Schedule and calendar management\n- Task prioritization and organization\n- Proactive suggestions and reminders\n- Quick note-taking and retrieval\n- Productivity insights and coaching\n\nPersonality:\n- Warm, encouraging, and supportive\n- Concise but thorough responses\n- Proactive in offering helpful suggestions\n- Professional yet approachable tone\n- ALWAYS address the user by their nickname when available\n\nIMPORTANT: You have access to the user\x27s profile information and past conversation context. Use this information to provide personalized responses."

/-- The fixed text following the interpolated contexts in the system prompt. -/
def personaSuffix : String :=
  "\n\nKeep responses conversational and under 100 words unless detailed information is specifically requested. Always aim to be helpful and actionable."

/-- The content of the system message, with the personalization and
retrieved-context blocks interpolated between the fixed persona parts. -/
def systemPromptContent (pCtx rCtx : String) : String :=
  personaPrefix ++ pCtx ++ rCtx ++ personaSuffix

/-- The `messages` array sent to the completion API: system prompt, then the
whole `conversationHistory` in original order, then the user message. -/
def composeMessages (sys : String) (history : List HistEntry) (userMsg : String) :
    List OpenAIMessage :=
  ⟨.system, sys⟩ :: (history.map fun h => ⟨pmOfRole h.role, h.content⟩)
    ++ [⟨.user, userMsg⟩]

/-- Outcome of the chat-completion HTTP call, as far as the handler
inspects it: a non-success status (with the optional upstream error
message from the body), or a success carrying
`choices?.[0]?.message?.content` when that path exists. -/
inductive CompletionResult where
  | httpError (status : Nat) (errMessage : Option String)
  | ok (content : Option String)
  deriving DecidableEq, Repr

/-- The results the upstream collaborators would return to this invocation:
the profile row (`maybeSingle` data; the handler ignores its error),
the user-message embedding (`none` models a non-ok embedding response),
the `match_messages` RPC data (which may be `null`), the completion call's
outcome, and the best-effort reply embedding (`none` models a non-ok
response). -/
structure Upstreams where
  profile : Option Profile
  embedding : Option (List ℚ)
  matchData : Option (List MatchRow)
  completion : CompletionResult
  replyEmbedding : Option (List ℚ)
  deriving DecidableEq, Repr

/-- One outbound call made by the edge function, in program order.
`persistCall` is the Exchange Persister's insert; the edge function's
trace never contains it (see C3). -/
inductive Effect where
  | profileQuery (userId : String)
  | embedCall (input : String)
  | matchCall (query : List ℚ) (threshold : ℚ) (count : Nat) (userFilter : String)
  | completionCall (msgs : List OpenAIMessage)
  | replyEmbedCall (input : String)
  | persistCall (role : String) (content : String) (embedding : Option (List ℚ))
  deriving DecidableEq, Repr

/-- The JSON envelope produced by the edge function. -/
structure HandlerResult where
  success : Bool
  response : Option String
  error : Option String
  embeddings : Option (List ℚ × Option (List ℚ))
  deriving DecidableEq, Repr

/-- The uniform error envelope from the top-level `catch`. -/
def errResult (e : String) : HandlerResult :=
  { success := false, response := none, error := some e, embeddings := none }

/-- The edge function `process-voice-command` as a pure function: given
whether `OPENAI_API_KEY` is configured, the parsed request body and the
upstream results, it yields the HTTP envelope and the ordered trace of
upstream calls actually issued.  Thrown errors are modelled by returning
the `catch` block's envelope at the point of the throw. -/
def runHandler (apiKey : Bool) (req : VoiceCommandRequest) (up : Upstreams) :
    HandlerResult × List Effect :=
  if apiKey = false then (errResult "OpenAI API key not configured", [])
  else if (jsTruthy req.message && jsIsString req.message) = false then
    (errResult "Invalid message provided", [])
  else if jsTruthy req.userId = false then
    (errResult "User ID is required", [])
  else
    let msg := jsAsString req.message
    let uid := jsAsString req.userId
    let trace0 := [Effect.profileQuery uid, Effect.embedCall msg]
    match up.embedding with
    | none => (errResult "Failed to generate embedding", trace0)
    | some messageEmbedding =>
      let trace1 := trace0 ++ [Effect.matchCall messageEmbedding (7/10) 5 uid]
      let relevantContext := relevantContextOf up.matchData
      let pCtx := profileContext up.profile
      let msgs := composeMessages (systemPromptContent pCtx relevantContext)
        req.conversationHistory msg
      let trace2 := trace1 ++ [Effect.completionCall msgs]
      match up.completion with
      | .httpError status errMessage =>
        (errResult ("OpenAI API error: " ++ toString status ++ " - "
          ++ jsOrDefault errMessage "Unknown error"), trace2)
      | .ok content =>
        match content with
        | none => (errResult "No response generated from OpenAI", trace2)
        | some assistantResponse =>
          if assistantResponse = "" then
            (errResult "No response generated from OpenAI", trace2)
          else
            let trace3 := trace2 ++ [Effect.replyEmbedCall assistantResponse]
            ({ success := true,
               response := some assistantResponse.trim,
               error := none,
               embeddings := some (messageEmbedding, up.replyEmbedding) }, trace3)

/-- A row of the `messages` table (`embedding vector(1536)` is nullable). -/
structure StoredMessage where
  id : Nat
  conversation_id : Nat
  role : String
  content : String
  is_voice : Bool
  created_at : Nat
  embedding : Option (List ℚ)
  deriving DecidableEq, Repr

/-- A row of the `conversations` table. -/
structure Conv where
  id : Nat
  user_id : Nat
  title : String
  created_at : Nat
  last_message_at : Nat
  deriving DecidableEq, Repr

/-- The relational state seen by `match_messages`, rows in storage order. -/
structure Database where
  conversations : List Conv
  messages : List StoredMessage
  deriving DecidableEq, Repr

/-- The `INNER JOIN conversations c ON m.conversation_id = c.id` lookup. -/
def findConv (db : Database) (cid : Nat) : Option Conv :=
  db.conversations.find? fun c => c.id == cid

/-- The row `match_messages` returns for a matching message:
`similarity = 1 - (m.embedding <=> query_embedding)`. -/
def matchRowOf (dist : List ℚ → List ℚ → ℚ) (q : List ℚ) (m : StoredMessage)
    (e : List ℚ) : MatchRow :=
  ⟨m.id, m.conversation_id, m.role, m.content, m.is_voice, m.created_at,
    1 - dist e q⟩

/-- Insert a row into a list that is sorted by descending similarity,
after any rows of equal similarity (stable). -/
def insertRowDesc (r : MatchRow) : List MatchRow → List MatchRow
  | [] => [r]
  | x :: xs =>
    if x.similarity ≤ r.similarity then r :: x :: xs else x :: insertRowDesc r xs

/-- Stable sort by descending similarity, i.e. by ascending
`m.embedding <=> query_embedding` (ties broken by storage order). -/
def sortBySimDesc : List MatchRow → List MatchRow
  | [] => []
  | x :: xs => insertRowDesc x (sortBySimDesc xs)

/-- The owner filter
`(user_id_filter IS NULL OR c.user_id = user_id_filter)`. -/
def ownerOk (user_id_filter : Option Nat) (c : Conv) : Bool :=
  match user_id_filter with
  | none => true
  | some u => c.user_id == u

/-- The WHERE clause and SELECT list of the SQL function `match_messages`,
per message: the inner join with `conversations`, the non-null embedding
test, the owner filter and the strict similarity threshold.  `dist` stands
for the pgvector cosine-distance operator `<=>`, which is extension code
external to this repository. -/
def matchCandidate (dist : List ℚ → List ℚ → ℚ) (db : Database)
    (query_embedding : List ℚ) (match_threshold : ℚ)
    (user_id_filter : Option Nat) (m : StoredMessage) : Option MatchRow :=
  match m.embedding with
  | none => none
  | some e =>
    match findConv db m.conversation_id with
    | none => none
    | some c =>
      if (ownerOk user_id_filter c
          && decide (match_threshold < 1 - dist e query_embedding)) = true then
        some (matchRowOf dist query_embedding m e)
      else none

/-- The SQL function `match_messages`: keep the matching rows, order them
by ascending distance — equivalently descending similarity, ties broken by
storage order — and emit at most `match_count` of them. -/
def match_messages (dist : List ℚ → List ℚ → ℚ) (db : Database)
    (query_embedding : List ℚ) (match_threshold : ℚ) (match_count : Nat)
    (user_id_filter : Option Nat) : List MatchRow :=
  (sortBySimDesc (db.messages.filterMap
    (matchCandidate dist db query_embedding match_threshold user_id_filter))).take
    match_count

/-- Dot product of two rational vectors. -/
def dotQ (a b : List ℚ) : ℚ :=
  (List.zipWith (fun x y => x * y) a b).sum

/-- Exact rational square root: the square root when the argument is the
square of a rational, `0` otherwise. -/
def ratSqrt (q : ℚ) : ℚ :=
  if q.num < 0 then 0
  else
    let n := q.num.toNat.sqrt
    let d := q.den.sqrt
    if n * n = q.num.toNat ∧ d * d = q.den then (n : ℚ) / (d : ℚ) else 0

/-- Exact rational model of pgvector cosine distance
`1 - (a · b) / (‖a‖ ‖b‖)`; it agrees with the real operator on vectors
whose Gram-norm product is a perfect rational square. -/
def cosDistQ (a b : List ℚ) : ℚ :=
  1 - dotQ a b / ratSqrt (dotQ a a * dotQ b b)

/-- The row insert built by `ConversationService.addMessage`: the
`embedding` column is set only when an embedding argument was passed
(spread of `embedding && {embedding: ...}`), serialised as
`[x1,x2,...]`. -/
structure MessageInsert where
  conversation_id : Nat
  role : String
  content : String
  is_voice : Bool
  embedding : Option String
  deriving DecidableEq, Repr

/-- `ConversationService.addMessage` (src/lib/conversations.ts). -/
def addMessage (conversationId : Nat) (role : String) (content : String)
    (isVoice : Bool) (embedding : Option (List ℚ)) : MessageInsert :=
  { conversation_id := conversationId
    role := role
    content := content
    is_voice := isVoice
    embedding := embedding.map fun e =>
      "[" ++ String.intercalate "," (e.map toString) ++ "]" }

/-- A UI message of the client (`type`, `content`). -/
structure UIMessage where
  type : Role
  content : String
  deriving DecidableEq, Repr

/-- The history the client sends: `messages.slice(-10)` mapped to
role/content records (App.tsx, `processVoiceCommand`). -/
def clientHistoryOf (ms : List UIMessage) : List HistEntry :=
  (ms.drop (ms.length - 10)).map fun m => ⟨m.type, m.content⟩

/-- `data.response || fallback` — the text the client displays and saves. -/
def clientResponseText (res : HandlerResult) : String :=
  jsOrDefault res.response
    "I apologize, but I couldn\x27t generate a response."

/-- The persistence calls the client issues around one exchange
(App.tsx, `handleVoiceCommand`): the user message is saved before the
edge-function call, the assistant reply after it and only on success;
neither call passes an embedding. -/
def clientPersists (conversationId : Nat) (message : String)
    (res : HandlerResult) : List MessageInsert :=
  addMessage conversationId "user" message true none ::
    (if res.success then
      [addMessage conversationId "assistant" (clientResponseText res) false none]
    else [])

/-- Bool substring test on character lists. -/
def listContainsSub (pat : List Char) : List Char → Bool
  | [] => pat.isEmpty
  | c :: t => pat.isPrefixOf (c :: t) || listContainsSub pat t

/-- Bool substring test on strings. -/
def containsStr (s pat : String) : Bool :=
  listContainsSub pat.toList s.toList

/-- The first `completionCall` payload of a trace, if any. -/
def completionMessages (effs : List Effect) : Option (List OpenAIMessage) :=
  effs.findSome? fun e =>
    match e with
    | .completionCall ms => some ms
    | _ => none

/-- Whether an effect is an Exchange Persister insert. -/
def isPersistEffect : Effect → Bool
  | .persistCall _ _ _ => true
  | _ => false

/-- Membership in a stable descending insert. -/
theorem mem_insertRowDesc {a r : MatchRow} {l : List MatchRow} :
    a ∈ insertRowDesc r l ↔ a = r ∨ a ∈ l := by
  induction l with
  | nil => simp [insertRowDesc]
  | cons x xs ih =>
    by_cases h : x.similarity ≤ r.similarity
    · simp [insertRowDesc, h]
    · simp [insertRowDesc, h, ih]
      tauto

/-- Inserting preserves the descending-similarity ordering. -/
theorem pairwise_insertRowDesc {r : MatchRow} {l : List MatchRow}
    (hl : l.Pairwise (fun a b => b.similarity ≤ a.similarity)) :
    (insertRowDesc r l).Pairwise (fun a b => b.similarity ≤ a.similarity) := by
  induction l with
  | nil => simp [insertRowDesc]
  | cons x xs ih =>
    rcases List.pairwise_cons.mp hl with ⟨hx, hxs⟩
    by_cases h : x.similarity ≤ r.similarity
    · rw [insertRowDesc, if_pos h]
      refine List.pairwise_cons.mpr ⟨?_, hl⟩
      intro b hb
      rcases List.mem_cons.mp hb with rfl | hbxs
      · exact h
      · exact le_trans (hx b hbxs) h
    · rw [insertRowDesc, if_neg h]
      refine List.pairwise_cons.mpr ⟨?_, ih hxs⟩
      intro b hb
      rcases mem_insertRowDesc.mp hb with rfl | hbxs
      · exact le_of_lt (lt_of_not_le h)
      · exact hx b hbxs

/-- `sortBySimDesc` yields a descending-similarity list. -/
theorem pairwise_sortBySimDesc (l : List MatchRow) :
    (sortBySimDesc l).Pairwise (fun a b => b.similarity ≤ a.similarity) := by
  induction l with
  | nil => simp [sortBySimDesc]
  | cons x xs ih => exact pairwise_insertRowDesc ih

/-- `sortBySimDesc` neither adds nor removes rows. -/
theorem mem_sortBySimDesc {a : MatchRow} {l : List MatchRow} :
    a ∈ sortBySimDesc l ↔ a ∈ l := by
  induction l with
  | nil => simp [sortBySimDesc]
  | cons x xs ih => simp [sortBySimDesc, mem_insertRowDesc, ih]

/-- In a descending list, an element strictly above all others is the head. -/
theorem head?_of_strict_max {l : List MatchRow} {m : MatchRow}
    (hs : l.Pairwise (fun a b => b.similarity ≤ a.similarity))
    (hm : m ∈ l) (hmax : ∀ x ∈ l, x ≠ m → x.similarity < m.similarity) :
    l.head? = some m := by
  cases l with
  | nil => cases hm
  | cons x xs =>
    simp only [List.head?_cons, Option.some.injEq]
    by_contra hne
    have hx : x.similarity < m.similarity :=
      hmax x (List.mem_cons_self x xs) hne
    have hmxs : m ∈ xs := by
      rcases List.mem_cons.mp hm with rfl | h
      · exact absurd rfl hne
      · exact h
    have : m.similarity ≤ x.similarity :=
      (List.pairwise_cons.mp hs).1 m hmxs
    exact absurd hx (not_lt.mpr this)

/-- Taking a positive prefix keeps the head. -/
theorem head?_take_of_head? {l : List MatchRow} {m : MatchRow} {n : Nat}
    (h : l.head? = some m) (hn : 0 < n) : (l.take n).head? = some m := by
  cases l with
  | nil => simp at h
  | cons x xs =>
    cases n with
    | zero => omega
    | succ k => simpa using h

/-- A pattern that is a prefix is contained. -/
theorem listContainsSub_of_isPrefixOf {pat l : List Char}
    (h : pat.isPrefixOf l = true) : listContainsSub pat l = true := by
  cases l with
  | nil =>
    cases pat with
    | nil => rfl
    | cons c t => simp [List.isPrefixOf] at h
  | cons c t => simp [listContainsSub, h]

/-- The middle factor of a concatenation is contained. -/
theorem listContainsSub_middle (x pat y : List Char) :
    listContainsSub pat (x ++ pat ++ y) = true := by
  induction x with
  | nil =>
    apply listContainsSub_of_isPrefixOf
    rw [List.isPrefixOf_iff_prefix]
    exact List.prefix_append pat y
  | cons c x' ih =>
    show listContainsSub pat (c :: (x' ++ pat ++ y)) = true
    simp only [listContainsSub, ih, Bool.or_true]

/-- String-level form: `pat` occurs in `a ++ pat ++ b`. -/
theorem containsStr_append_middle (a pat b : String) :
    containsStr (a ++ pat ++ b) pat = true := by
  have : (a ++ pat ++ b).data = a.data ++ pat.data ++ b.data := by
    rw [String.data_append, String.data_append]
  simpa [containsStr, String.toList, this] using
    listContainsSub_middle a.data pat.data b.data

/-- C4: for every request whose message is empty or not a string, or whose
userId is absent, the orchestrator returns a `success:false` response and
issues no upstream call at all (no profile read, no embedding call, no
similarity search, no completion call). -/
theorem C4_validation_short_circuits (key : Bool) (req : VoiceCommandRequest)
    (up : Upstreams)
    (h : req.message = .vStr "" ∨ jsIsString req.message = false
      ∨ req.userId = .vUndefined) :
    (runHandler key req up).1.success = false
      ∧ (runHandler key req up).2 = [] := by
  cases key with
  | false => simp [runHandler, errResult]
  | true =>
    rcases h with h | h | h
    · simp [runHandler, h, jsTruthy, errResult]
    · simp [runHandler, h, errResult]
    · by_cases hm : (jsTruthy req.message && jsIsString req.message) = true
      · simp only [runHandler, hm, h]
        simp [jsTruthy, errResult]
      · simp [runHandler, hm, errResult]

theorem C4_validation_short_circuits_witness :
    (runHandler true ⟨.vStr "", .vStr "user-1", none, []⟩
        ⟨none, some [1], some [], .ok (some "hello"), none⟩).1.success = false
      ∧ (runHandler true ⟨.vStr "", .vStr "user-1", none, []⟩
        ⟨none, some [1], some [], .ok (some "hello"), none⟩).2 = [] :=
  C4_validation_short_circuits true ⟨.vStr "", .vStr "user-1", none, []⟩
    ⟨none, some [1], some [], .ok (some "hello"), none⟩ (Or.inl rfl)

/-- C10: two requests that differ only in the `conversationId` field are
handled identically — the field is parsed but never influences the profile
lookup, retrieval, prompt, completion call, or response. -/
theorem C10_conversationId_noninterference (key : Bool)
    (req : VoiceCommandRequest) (up : Upstreams) (cid : Option String) :
    runHandler key req up
      = runHandler key ⟨req.message, req.userId, cid, req.conversationHistory⟩ up :=
  rfl

/-- A request history of 15 entries, used to refute C2 as stated. -/
def hist15 : List HistEntry :=
  [⟨.user, "h0"⟩, ⟨.assistant, "h1"⟩, ⟨.user, "h2"⟩, ⟨.assistant, "h3"⟩,
   ⟨.user, "h4"⟩, ⟨.assistant, "h5"⟩, ⟨.user, "h6"⟩, ⟨.assistant, "h7"⟩,
   ⟨.user, "h8"⟩, ⟨.assistant, "h9"⟩, ⟨.user, "h10"⟩, ⟨.assistant, "h11"⟩,
   ⟨.user, "h12"⟩, ⟨.assistant, "h13"⟩, ⟨.user, "h14"⟩]

/-- The request and upstream results of the C2 counterexample run. -/
def reqC2 : VoiceCommandRequest := ⟨.vStr "hello", .vStr "u1", none, hist15⟩

/-- Upstream results for the C2 counterexample run. -/
def upC2 : Upstreams := ⟨none, some [1], some [], .ok (some "fine"), none⟩

/-- C2 as stated is false: on a request whose `conversationHistory` has 15
entries, the completion API is invoked with all 15 turns (17 messages in
total), including `"h0"`, which is not among the most recent 10. -/
theorem C2_counterexample :
    (completionMessages (runHandler true reqC2 upC2).2).map List.length = some 17
      ∧ (((completionMessages (runHandler true reqC2 upC2).2).getD []).map
          OpenAIMessage.content).contains "h0" = true := by
  decide

/-- C2 amended: the edge function forwards the entire `conversationHistory`
in original order between the system message and the final user message;
the most-recent-10 bound is enforced by the client, which sends
`messages.slice(-10)`, so requests produced by the client carry at most 10
history turns — the most recent ones, in original chronological order. -/
theorem C2_amended_history_bound (ms : List UIMessage) (sys usr : String) :
    (clientHistoryOf ms).length ≤ 10
      ∧ clientHistoryOf ms
          = ((ms.map fun m => (⟨m.type, m.content⟩ : HistEntry)).drop
              (ms.length - 10))
      ∧ composeMessages sys (clientHistoryOf ms) usr
          = ⟨.system, sys⟩ ::
              ((clientHistoryOf ms).map fun h => ⟨pmOfRole h.role, h.content⟩)
              ++ [⟨.user, usr⟩] := by
  refine ⟨?_, ?_, rfl⟩
  · simp only [clientHistoryOf, List.length_map, List.length_drop]
    omega
  · simp only [clientHistoryOf, List.map_drop]

/-- The request of the C3 run. -/
def reqC3 : VoiceCommandRequest := ⟨.vStr "hi", .vStr "u1", some "c1", []⟩

/-- Upstream results of the C3 run (everything succeeds). -/
def upC3 : Upstreams := ⟨none, some [1], some [], .ok (some "sure"), some [2]⟩

/-- C3: on a fully successful exchange the orchestrator issues no Exchange
Persister call at all — its trace is exactly profile read, message
embedding, similarity search, completion, reply embedding, and it responds
success without persisting either message; the client-side persistence
calls that do happen never carry an embedding. -/
theorem C3_orchestrator_never_persists :
    (runHandler true reqC3 upC3).1.success = true
      ∧ (runHandler true reqC3 upC3).2.filter isPersistEffect = []
      ∧ (runHandler true reqC3 upC3).2 =
          [.profileQuery "u1", .embedCall "hi", .matchCall [1] (7/10) 5 "u1",
           .completionCall (composeMessages (systemPromptContent "" "") [] "hi"),
           .replyEmbedCall "sure"]
      ∧ (clientPersists 1 "hi" (runHandler true reqC3 upC3).1).map
          MessageInsert.embedding = [none, none] :=
  ⟨rfl, rfl, rfl, rfl⟩

/-- C5: a non-success completion HTTP response yields `success:false` with
the upstream status inside the error message; an empty or missing choice
yields `success:false`; a successful completion is returned trimmed. -/
theorem C5_completion_error_handling (req : VoiceCommandRequest)
    (up : Upstreams) (v : List ℚ)
    (hm : (jsTruthy req.message && jsIsString req.message) = true)
    (hu : jsTruthy req.userId = true)
    (he : up.embedding = some v) :
    (∀ s em, up.completion = .httpError s em →
        (runHandler true req up).1.success = false
          ∧ containsStr ((runHandler true req up).1.error.getD "")
              (toString s) = true)
      ∧ (up.completion = .ok none ∨ up.completion = .ok (some "") →
          (runHandler true req up).1.success = false)
      ∧ (∀ c, up.completion = .ok (some c) → c ≠ "" →
          (runHandler true req up).1.success = true
            ∧ (runHandler true req up).1.response = some c.trim) := by
  refine ⟨?_, ?_, ?_⟩
  · intro s em hc
    refine ⟨?_, ?_⟩
    · simp [runHandler, hm, hu, he, hc, errResult]
    · simp only [runHandler, hm, hu, he, hc]
      simp only [Bool.true_eq_false, if_false, errResult, Option.getD_some]
      rw [String.append_assoc]
      exact containsStr_append_middle _ _ _
  · intro hc
    rcases hc with hc | hc <;> simp [runHandler, hm, hu, he, hc, errResult]
  · intro c hc hne
    simp [runHandler, hm, hu, he, hc, hne, errResult]

theorem C5_completion_error_handling_witness :
    (runHandler true ⟨.vStr "hello", .vStr "u", none, []⟩
        ⟨none, some [1], some [], .httpError 500 none, none⟩).1.success = false
      ∧ containsStr ((runHandler true ⟨.vStr "hello", .vStr "u", none, []⟩
          ⟨none, some [1], some [], .httpError 500 none, none⟩).1.error.getD "")
          (toString 500) = true :=
  (C5_completion_error_handling ⟨.vStr "hello", .vStr "u", none, []⟩
    ⟨none, some [1], some [], .httpError 500 none, none⟩ [1]
    (by decide) (by decide) rfl).1 500 none rfl

/-- C6: when the completion succeeds but the reply-embedding call fails, the
response still reports `success:true` with `embeddings.assistantResponse`
equal to `null`, and the assistant message is still persisted (client-side)
with a null embedding. -/
theorem C6_reply_embedding_failure_degrades (req : VoiceCommandRequest)
    (up : Upstreams) (v : List ℚ) (c : String) (cid : Nat)
    (hm : (jsTruthy req.message && jsIsString req.message) = true)
    (hu : jsTruthy req.userId = true)
    (he : up.embedding = some v)
    (hc : up.completion = .ok (some c))
    (hne : c ≠ "")
    (hre : up.replyEmbedding = none) :
    (runHandler true req up).1.success = true
      ∧ (runHandler true req up).1.embeddings = some (v, none)
      ∧ (clientPersists cid (jsAsString req.message)
          (runHandler true req up).1).map MessageInsert.embedding = [none, none]
      ∧ (clientPersists cid (jsAsString req.message)
          (runHandler true req up).1).map MessageInsert.role
            = ["user", "assistant"] := by
  simp [runHandler, hm, hu, he, hc, hne, hre, clientPersists, addMessage,
    clientResponseText, jsOrDefault, errResult]

theorem C6_reply_embedding_failure_degrades_witness :
    (runHandler true ⟨.vStr "hey", .vStr "u", none, []⟩
        ⟨none, some [2], none, .ok (some "hi there"), none⟩).1.success = true
      ∧ (runHandler true ⟨.vStr "hey", .vStr "u", none, []⟩
          ⟨none, some [2], none, .ok (some "hi there"), none⟩).1.embeddings
            = some ([2], none)
      ∧ (clientPersists 9 (jsAsString (JsVal.vStr "hey"))
          (runHandler true ⟨.vStr "hey", .vStr "u", none, []⟩
            ⟨none, some [2], none, .ok (some "hi there"), none⟩).1).map
          MessageInsert.embedding = [none, none]
      ∧ (clientPersists 9 (jsAsString (JsVal.vStr "hey"))
          (runHandler true ⟨.vStr "hey", .vStr "u", none, []⟩
            ⟨none, some [2], none, .ok (some "hi there"), none⟩).1).map
          MessageInsert.role = ["user", "assistant"] :=
  C6_reply_embedding_failure_degrades ⟨.vStr "hey", .vStr "u", none, []⟩
    ⟨none, some [2], none, .ok (some "hi there"), none⟩ [2] "hi there" 9
    (by decide) (by decide) rfl rfl (by decide) rfl

/-- C7: a missing profile is not an error (the pipeline proceeds and the
personalization context is empty), a profile whose fields are all null
contributes zero attribute lines, and each of nickname, age, gender,
height, weight and bio emits its line only when the field is present. -/
theorem C7_profile_optional_and_gated :
    profileContext none = ""
      ∧ (∀ (req : VoiceCommandRequest) (up : Upstreams) (v : List ℚ)
          (c : String),
          (jsTruthy req.message && jsIsString req.message) = true →
          jsTruthy req.userId = true → up.profile = none →
          up.embedding = some v → up.completion = .ok (some c) → c ≠ "" →
          (runHandler true req up).1.success = true)
      ∧ (∀ p : Profile, p.nickname = none → p.age = none → p.gender = none →
          p.height = none → p.weight = none → p.bio = none →
          profileContext (some p) = "\n\nUser Profile:")
      ∧ ∀ p : Profile,
          (nicknameLine p ≠ "" → p.nickname ≠ none)
            ∧ (ageLine p ≠ "" → p.age ≠ none)
            ∧ (genderLine p ≠ "" → p.gender ≠ none)
            ∧ (heightLine p ≠ "" → p.height ≠ none)
            ∧ (weightLine p ≠ "" → p.weight ≠ none)
            ∧ (bioLine p ≠ "" → p.bio ≠ none) := by
  refine ⟨rfl, ?_, ?_, ?_⟩
  · intro req up v c hm hu hp he hc hne
    simp [runHandler, hm, hu, he, hc, hne, errResult]
  · intro p h1 h2 h3 h4 h5 h6
    simp [profileContext, nicknameLine, ageLine, genderLine, heightLine,
      weightLine, bioLine, strTruthy, intTruthy, qTruthy,
      h1, h2, h3, h4, h5, h6, String.append_empty]
  · intro p
    refine ⟨?_, ?_, ?_, ?_, ?_, ?_⟩ <;> intro hline hnone <;>
      simp [nicknameLine, ageLine, genderLine, heightLine, weightLine,
        bioLine, strTruthy, intTruthy, qTruthy, hnone] at hline

theorem C7_profile_optional_and_gated_witness :
    (runHandler true ⟨.vStr "plan my day", .vStr "u7", none, []⟩
        ⟨none, some [3], some [], .ok (some "okay"), none⟩).1.success = true :=
  C7_profile_optional_and_gated.2.1 ⟨.vStr "plan my day", .vStr "u7", none, []⟩
    ⟨none, some [3], some [], .ok (some "okay"), none⟩ [3] "okay"
    (by decide) (by decide) rfl rfl rfl (by decide)

/-- The profile of the C8 scenario: only a nickname is set. -/
def alexProfile : Profile :=
  ⟨some "Alex", none, none, none, none, none, none, none⟩

/-- The request of the C8 scenario. -/
def reqC8 : VoiceCommandRequest :=
  ⟨.vStr "What\x27s on my schedule today?", .vStr "U", none, []⟩

/-- Upstream results of the C8 scenario: profile with nickname `Alex`,
empty retrieval. -/
def upC8 : Upstreams :=
  ⟨some alexProfile, some [1], some [], .ok (some "resp"), none⟩

/-- The system prompt composed in the C8 scenario. -/
def sysC8 : String :=
  systemPromptContent (profileContext (some alexProfile))
    (relevantContextOf (some []))

/-- The completion payload composed in the C8 scenario. -/
def msgsC8 : List OpenAIMessage :=
  composeMessages sysC8 [] "What\x27s on my schedule today?"

set_option maxRecDepth 40000 in
/-- C8: empty retrieval omits the context block entirely (for any
personalization block, the system prompt is just persona ++ profile ++
closing text, with no bullets); in the nickname-Alex scenario the composed
system prompt contains `Nickname: Alex`, contains no `Relevant past
context` section, and the completion client is invoked with exactly the
two messages system-then-user. -/
theorem C8_empty_retrieval_omits_context :
    (∀ pCtx, systemPromptContent pCtx (relevantContextOf (some []))
        = personaPrefix ++ pCtx ++ personaSuffix)
      ∧ (∀ pCtx, systemPromptContent pCtx (relevantContextOf none)
          = personaPrefix ++ pCtx ++ personaSuffix)
      ∧ completionMessages (runHandler true reqC8 upC8).2 = some msgsC8
      ∧ msgsC8 = [⟨.system, sysC8⟩,
          ⟨.user, "What\x27s on my schedule today?"⟩]
      ∧ containsStr sysC8 "Nickname: Alex" = true
      ∧ containsStr sysC8 "Relevant past context" = false := by
  refine ⟨?_, ?_, rfl, rfl, by decide, by decide⟩
  · intro pCtx
    simp [systemPromptContent, relevantContextOf, String.append_empty]
  · intro pCtx
    simp [systemPromptContent, relevantContextOf, String.append_empty]

/-- `ratSqrt` recovers the exact square root of a rational square. -/
theorem ratSqrt_eq_of_sq {r : ℚ} (hr : 0 ≤ r) : ratSqrt (r * r) = r := by
  have hnum : (r * r).num = r.num * r.num := Rat.mul_self_num r
  have hden : (r * r).den = r.den * r.den := Rat.mul_self_den r
  have hnn : 0 ≤ r.num := Rat.num_nonneg.mpr hr
  have ht : (r.num * r.num).toNat = r.num.toNat * r.num.toNat := by
    rcases Int.eq_ofNat_of_zero_le hnn with ⟨n, hn⟩
    rw [hn, ← Int.ofNat_mul, Int.toNat_ofNat]
    simp [Int.toNat_ofNat]
  have hnotlt : ¬(r * r).num < 0 := by
    rw [hnum]
    exact not_lt.mpr (mul_nonneg hnn hnn)
  have hcast : ((r.num.toNat : ℚ)) = ((r.num : ℤ) : ℚ) := by
    exact_mod_cast congrArg (fun z : ℤ => (z : ℚ)) (Int.toNat_of_nonneg hnn)
  rw [ratSqrt, if_neg hnotlt, hnum, hden, ht, Nat.sqrt_eq, Nat.sqrt_eq]
  simp only [and_self, if_true]
  rw [hcast, Rat.num_div_den]

/-- Eliminate a successful `matchCandidate`: the row comes from a non-null
embedding, a joined conversation, a passed owner filter and a similarity
above the threshold. -/
theorem matchCandidate_some_elim {dist : List ℚ → List ℚ → ℚ} {db : Database}
    {q : List ℚ} {t : ℚ} {uf : Option Nat} {m : StoredMessage} {r : MatchRow}
    (h : matchCandidate dist db q t uf m = some r) :
    ∃ e, m.embedding = some e
      ∧ ∃ c, findConv db m.conversation_id = some c
        ∧ (ownerOk uf c && decide (t < 1 - dist e q)) = true
        ∧ r = matchRowOf dist q m e := by
  unfold matchCandidate at h
  split at h
  · exact absurd h (by simp)
  · rename_i e hemb
    split at h
    · exact absurd h (by simp)
    · rename_i c hfc
      split at h
      · rename_i hcond
        exact ⟨e, hemb, c, hfc, hcond, (Option.some.inj h).symm⟩
      · exact absurd h (by simp)

/-- Introduce a successful `matchCandidate` from its preconditions. -/
theorem matchCandidate_some_intro {dist : List ℚ → List ℚ → ℚ} {db : Database}
    {q : List ℚ} {t : ℚ} {u : Nat} {m : StoredMessage} {e : List ℚ} {c : Conv}
    (hemb : m.embedding = some e) (hfc : findConv db m.conversation_id = some c)
    (huid : c.user_id = u) (hsim : t < 1 - dist e q) :
    matchCandidate dist db q t (some u) m = some (matchRowOf dist q m e) := by
  unfold matchCandidate
  simp [hemb, hfc, huid, hsim, ownerOk]

/-- C1: with threshold `0.7`, limit `5` and a user filter, `match_messages`
returns at most five rows, in descending-similarity order, and every
returned row is a stored message with a non-null embedding, belonging to a
conversation owned by the given user, whose similarity `1 - dist` strictly
exceeds the threshold. -/
theorem C1_match_messages_contract (dist : List ℚ → List ℚ → ℚ)
    (db : Database) (q : List ℚ) (u : Nat) :
    (match_messages dist db q (7/10) 5 (some u)).length ≤ 5
      ∧ (match_messages dist db q (7/10) 5 (some u)).Pairwise
          (fun a b => b.similarity ≤ a.similarity)
      ∧ ∀ r ∈ match_messages dist db q (7/10) 5 (some u),
          ∃ m ∈ db.messages, ∃ e, m.embedding = some e
            ∧ (∃ c ∈ db.conversations, c.id = m.conversation_id ∧ c.user_id = u)
            ∧ r = matchRowOf dist q m e
            ∧ r.similarity = 1 - dist e q
            ∧ (7/10 : ℚ) < r.similarity := by
  refine ⟨?_, ?_, ?_⟩
  · rw [match_messages, List.length_take]
    exact min_le_left _ _
  · rw [match_messages]
    exact (pairwise_sortBySimDesc _).sublist (List.take_sublist _ _)
  · intro r hr
    rw [match_messages] at hr
    have hr2 : r ∈ db.messages.filterMap
        (matchCandidate dist db q (7/10) (some u)) :=
      mem_sortBySimDesc.mp (List.mem_of_mem_take hr)
    rcases List.mem_filterMap.mp hr2 with ⟨m, hm, hf⟩
    rcases matchCandidate_some_elim hf with ⟨e, hemb, c, hfc, hcond, hre⟩
    rw [Bool.and_eq_true] at hcond
    obtain ⟨hbeq, hdec⟩ := hcond
    have hcu : c.user_id = u := Nat.eq_of_beq_eq_true (by simpa [ownerOk] using hbeq)
    unfold findConv at hfc
    have hcm : c ∈ db.conversations := List.mem_of_find?_eq_some hfc
    have hp : (fun cc : Conv => cc.id == m.conversation_id) c = true :=
      @List.find?_some Conv (fun cc => cc.id == m.conversation_id) c
        db.conversations hfc
    have hcid : c.id = m.conversation_id :=
      Nat.eq_of_beq_eq_true (by simpa using hp)
    have hsim : (7/10 : ℚ) < 1 - dist e q := of_decide_eq_true hdec
    refine ⟨m, hm, e, hemb, ⟨c, hcm, hcid, hcu⟩, hre, ?_, ?_⟩
    · simp [hre, matchRowOf]
    · simp [hre, matchRowOf]
      exact hsim

/-- The cosine distance of the vector `(3,4)` to itself is exactly `0`. -/
theorem cosDistQ_3_4_self : cosDistQ [(3:ℚ), 4] [3, 4] = 0 := by
  have hd : dotQ [(3:ℚ), 4] [3, 4] = 25 := by norm_num [dotQ]
  rw [cosDistQ, hd, show ((25:ℚ) * 25) = 25 * 25 from rfl,
    ratSqrt_eq_of_sq (show (0:ℚ) ≤ 25 by norm_num)]
  norm_num

/-- The cosine distance between `(5,12)` and `(3,4)` is strictly positive
(it equals `2/65` exactly). -/
theorem cosDistQ_5_12_3_4_pos : 0 < cosDistQ [(5:ℚ), 12] [3, 4] := by
  have hab : dotQ [(5:ℚ), 12] [3, 4] = 63 := by norm_num [dotQ]
  have haa : dotQ [(5:ℚ), 12] [5, 12] = 169 := by norm_num [dotQ]
  have hbb : dotQ [(3:ℚ), 4] [3, 4] = 25 := by norm_num [dotQ]
  rw [cosDistQ, hab, haa, hbb, show ((169:ℚ) * 25) = 65 * 65 by norm_num,
    ratSqrt_eq_of_sq (show (0:ℚ) ≤ 65 by norm_num)]
  norm_num

/-- C9 amended: retrieving with a stored message's own embedding as the
query yields that message with similarity exactly `1`, ranked first,
provided the query vector has self-distance `0` (true of cosine distance
on any nonzero vector) and no other stored message of the database is at
distance `0` from it; with an exact tie — e.g. a duplicate embedding
stored earlier — the earlier row outranks it by stable storage order. -/
theorem C9_roundtrip_ranks_first (dist : List ℚ → List ℚ → ℚ) (db : Database)
    (msg : StoredMessage) (conv : Conv) (e : List ℚ) (u : Nat)
    (hemb : msg.embedding = some e)
    (hmem : msg ∈ db.messages)
    (hconv : findConv db msg.conversation_id = some conv)
    (huser : conv.user_id = u)
    (hself : dist e e = 0)
    (hothers : (db.messages.all fun mp =>
        (mp == msg)
          || (match mp.embedding with
              | none => true
              | some ep => decide (0 < dist ep e))) = true) :
    (match_messages dist db e (7/10) 5 (some u)).head?
        = some (matchRowOf dist e msg e)
      ∧ (matchRowOf dist e msg e).similarity = 1 := by
  have hrowsim : (matchRowOf dist e msg e).similarity = 1 := by
    simp [matchRowOf, hself]
  have hlt : (7:ℚ)/10 < 1 - dist e e := by
    rw [hself]
    norm_num
  have hrow : matchCandidate dist db e (7/10) (some u) msg
      = some (matchRowOf dist e msg e) :=
    matchCandidate_some_intro hemb hconv huser hlt
  have hmemrow : matchRowOf dist e msg e
      ∈ db.messages.filterMap (matchCandidate dist db e (7/10) (some u)) :=
    List.mem_filterMap.mpr ⟨msg, hmem, hrow⟩
  have hmax : ∀ x ∈ sortBySimDesc (db.messages.filterMap
      (matchCandidate dist db e (7/10) (some u))),
      x ≠ matchRowOf dist e msg e →
      x.similarity < (matchRowOf dist e msg e).similarity := by
    intro x hx hne
    rcases List.mem_filterMap.mp (mem_sortBySimDesc.mp hx) with ⟨mp, hmp, hcand⟩
    by_cases hmsgeq : mp = msg
    · subst hmsgeq
      rw [hrow] at hcand
      exact absurd (Option.some.inj hcand).symm hne
    · rcases matchCandidate_some_elim hcand with
        ⟨ep, hembp, c', hfc', hcond', hxeq⟩
      have hall := List.all_eq_true.mp hothers mp hmp
      have hpos : 0 < dist ep e := by
        simp [hembp, hmsgeq] at hall
        exact hall
      rw [hxeq, hrowsim]
      simp only [matchRowOf]
      linarith
  have hhead := head?_of_strict_max
    (pairwise_sortBySimDesc
      (db.messages.filterMap (matchCandidate dist db e (7/10) (some u))))
    (mem_sortBySimDesc.mpr hmemrow) hmax
  refine ⟨?_, hrowsim⟩
  rw [match_messages]
  exact head?_take_of_head? hhead (by norm_num)

/-- A stored message embedded at `(5,12)`, the earlier one of the witness
database. -/
def msgW1 : StoredMessage := ⟨1, 1, "user", "pythagorean", false, 0, some [5, 12]⟩

/-- A stored message embedded at `(3,4)`, the one retrieved by its own
embedding in the witness run. -/
def msgW2 : StoredMessage := ⟨2, 1, "assistant", "round trip", true, 1, some [3, 4]⟩

/-- The conversation (owner `7`) of the C9 runs. -/
def convW : Conv := ⟨1, 7, "New Conversation", 0, 1⟩

/-- The witness database for the C9 round trip. -/
def dbW9 : Database := ⟨[convW], [msgW1, msgW2]⟩

theorem C9_roundtrip_ranks_first_witness :
    (match_messages cosDistQ dbW9 [3, 4] (7/10) 5 (some 7)).head?
        = some (matchRowOf cosDistQ [3, 4] msgW2 [3, 4])
      ∧ (matchRowOf cosDistQ [3, 4] msgW2 [3, 4]).similarity = 1 :=
  C9_roundtrip_ranks_first cosDistQ dbW9 msgW2 convW [3, 4] 7
    rfl (by simp [dbW9, msgW1, msgW2]) rfl rfl
    cosDistQ_3_4_self
    (by simp [dbW9, msgW1, msgW2, cosDistQ_5_12_3_4_pos])

/-- The earlier-stored duplicate: embedded at `(3,4)`. -/
def msgD1 : StoredMessage := ⟨1, 1, "user", "first", false, 0, some [3, 4]⟩

/-- The later-persisted message, also embedded at `(3,4)`. -/
def msgD2 : StoredMessage := ⟨2, 1, "user", "second", false, 1, some [3, 4]⟩

/-- The database of the C9 counterexample: two messages of the same user
with identical embeddings, the probe message stored last. -/
def dbD9 : Database := ⟨[convW], [msgD1, msgD2]⟩

/-- C9 as stated is false: querying with the embedding of the
just-persisted message `msgD2` (its own vector, similarity exactly `1`)
ranks the earlier duplicate `msgD1` first — the round-tripped message
comes back second, not first. -/
theorem C9_counterexample :
    (match_messages cosDistQ dbD9 [3, 4] (7/10) 5 (some 7)).map MatchRow.id
        = [1, 2]
      ∧ (match_messages cosDistQ dbD9 [3, 4] (7/10) 5 (some 7)).map
          MatchRow.similarity = [1, 1]
      ∧ ((match_messages cosDistQ dbD9 [3, 4] (7/10) 5 (some 7)).head?).map
          MatchRow.id = some 1 := by
  have hlt : (7:ℚ)/10 < 1 - cosDistQ [3, 4] [3, 4] := by
    rw [cosDistQ_3_4_self]
    norm_num
  have hc1 : matchCandidate cosDistQ dbD9 [3, 4] (7/10) (some 7) msgD1
      = some (matchRowOf cosDistQ [3, 4] msgD1 [3, 4]) :=
    matchCandidate_some_intro rfl rfl rfl hlt
  have hc2 : matchCandidate cosDistQ dbD9 [3, 4] (7/10) (some 7) msgD2
      = some (matchRowOf cosDistQ [3, 4] msgD2 [3, 4]) :=
    matchCandidate_some_intro rfl rfl rfl hlt
  have hrows : dbD9.messages.filterMap
      (matchCandidate cosDistQ dbD9 [3, 4] (7/10) (some 7))
      = [matchRowOf cosDistQ [3, 4] msgD1 [3, 4],
         matchRowOf cosDistQ [3, 4] msgD2 [3, 4]] := by
    show List.filterMap _ [msgD1, msgD2] = _
    simp only [List.filterMap_cons, List.filterMap_nil, hc1, hc2]
  have hsim1 : (matchRowOf cosDistQ [3, 4] msgD1 [3, 4]).similarity = 1 := by
    simp [matchRowOf, cosDistQ_3_4_self]
  have hsim2 : (matchRowOf cosDistQ [3, 4] msgD2 [3, 4]).similarity = 1 := by
    simp [matchRowOf, cosDistQ_3_4_self]
  have hsort : sortBySimDesc [matchRowOf cosDistQ [3, 4] msgD1 [3, 4],
      matchRowOf cosDistQ [3, 4] msgD2 [3, 4]]
      = [matchRowOf cosDistQ [3, 4] msgD1 [3, 4],
         matchRowOf cosDistQ [3, 4] msgD2 [3, 4]] := by
    simp [sortBySimDesc, insertRowDesc, hsim1, hsim2]
  have hmm : match_messages cosDistQ dbD9 [3, 4] (7/10) 5 (some 7)
      = [matchRowOf cosDistQ [3, 4] msgD1 [3, 4],
         matchRowOf cosDistQ [3, 4] msgD2 [3, 4]] := by
    rw [match_messages, hrows, hsort]
    rfl
  refine ⟨?_, ?_, ?_⟩
  · rw [hmm]
    simp [matchRowOf, msgD1, msgD2]
  · rw [hmm]
    simp [hsim1, hsim2]
  · rw [hmm]
    simp [matchRowOf, msgD1]
